import Mathlib

/-!
Verification of the sitemap/XML generation and Schema.org structured-data
generation core of a content website.

The sitemap module (`sitemap.ts`) is embedded as pure functions on `String`
(strings are treated through their character lists); JS `undefined`-able
fields become `Option`, JS string truthiness becomes `truthyS`, and the JS
number used for `priority` is embedded as `ℚ` (exact rational arithmetic in
place of IEEE doubles; `toFixed(1)` is the round-half-away-from-zero
rendering mandated by the ECMAScript specification).

The Schema.org module (`schemas.ts`) is embedded as record-to-record
functions; an optional JSON key that the generator omits is `none`, a key it
emits is `some`.  The generators never assign `null`, so this is faithful.

To state round-trip properties about the produced XML documents, the file
also contains a small XML lexer (`lexAux`), an element-content extractor
(`parseAux`) and an entity decoder (`unescChars`); these model the
"re-parse as XML and XML-unescape" step of the specification and are not
part of the embedded program.
-/

set_option maxHeartbeats 1000000

namespace SeoLab

/-! ### Decimal digit rendering (models JS number-to-string for naturals) -/

/-- Fuel-indexed most-significant-first decimal digits of a natural number. -/
def natToDigitsAux : ℕ → ℕ → List Char
  | 0, _ => []
  | fuel + 1, n =>
    if n < 10 then [Nat.digitChar n]
    else natToDigitsAux fuel (n / 10) ++ [Nat.digitChar (n % 10)]

/-- Decimal digits of a natural number, most significant first. -/
def natToDigits (n : ℕ) : List Char := natToDigitsAux (n + 1) n

/-- Decimal rendering of a natural number. -/
def natToString (n : ℕ) : String := String.mk (natToDigits n)

/-! ### Character-list string primitives (model JS string methods) -/

/-- Models `String.prototype.startsWith`. -/
def strStartsWith (s p : String) : Bool := List.isPrefixOf p.data s.data

/-- Models `String.prototype.endsWith`. -/
def strEndsWith (s p : String) : Bool := List.isSuffixOf p.data s.data

/-- Models `String.prototype.includes`: does `pat` occur as a contiguous
substring? -/
def containsSub (pat : List Char) : List Char → Bool
  | [] => List.isPrefixOf pat []
  | c :: rest => List.isPrefixOf pat (c :: rest) || containsSub pat rest

/-- JS truthiness of an optional string: `undefined` and `""` are falsy. -/
def truthyS : Option String → Bool
  | none => false
  | some s => decide (s ≠ "")

/-! ### Embedding of `src/lib/sitemap.ts` -/

/-- Interface `SitemapEntry` of `sitemap.ts`.  Optional fields are `Option`;
`changefreq` is kept as a string (its TS type is a string-literal union). -/
structure SitemapEntry where
  url : String
  lastmod : Option String := none
  changefreq : Option String := none
  priority : Option ℚ := none

/-- Per-character form of `escapeXml`'s chained global replaces.  The chain
replaces `&` first, and no later replacement target (`<`, `>`, `"`, `'`)
occurs inside an earlier inserted entity, so the five sequential global
replaces act as this single character map. -/
def escChar (c : Char) : List Char :=
  if c = '&' then "&amp;".data
  else if c = '<' then "&lt;".data
  else if c = '>' then "&gt;".data
  else if c = Char.ofNat 34 then "&quot;".data
  else if c = Char.ofNat 39 then "&apos;".data
  else [c]

/-- Function `escapeXml` of `sitemap.ts`. -/
def escapeXml (s : String) : String := String.mk (s.data.flatMap escChar)

/-- Models `Number.prototype.toFixed(1)`: sign, then the decimal rendering of
the half-away-from-zero rounding of `|q| * 10`, with one digit after the
point.  `(q.num.natAbs * 20 + q.den) / (2 * q.den)` is `⌊|q| * 10 + 1/2⌋`. -/
def toFixed1 (q : ℚ) : String :=
  let sign := if q < 0 then "-" else ""
  let n := (q.num.natAbs * 20 + q.den) / (2 * q.den)
  sign ++ natToString (n / 10) ++ "." ++ String.mk [Nat.digitChar (n % 10)]

/-- Function `generateSitemapEntry` of `sitemap.ts`.  The `if (entry.lastmod)`
and `if (entry.changefreq)` guards are JS truthiness; the priority guard is
`entry.priority !== undefined`. -/
def generateSitemapEntry (entry : SitemapEntry) : String :=
  let xml := "  <url>\n" ++ ("    <loc>" ++ escapeXml entry.url ++ "</loc>\n")
  let xml := if truthyS entry.lastmod then
      xml ++ ("    <lastmod>" ++ escapeXml (entry.lastmod.getD "") ++ "</lastmod>\n")
    else xml
  let xml := if truthyS entry.changefreq then
      xml ++ ("    <changefreq>" ++ escapeXml (entry.changefreq.getD "") ++ "</changefreq>\n")
    else xml
  let xml := match entry.priority with
    | some p => xml ++ ("    <priority>" ++ toFixed1 p ++ "</priority>\n")
    | none => xml
  xml ++ "  </url>\n"

/-- Function `generateSitemapXml` of `sitemap.ts` (the `for` loop is the
left fold over the entries). -/
def generateSitemapXml (entries : List SitemapEntry) : String :=
  let xml := "<?xml version=\"1.0\" encoding=\"UTF-8\"?>\n"
  let xml := xml ++ "<urlset xmlns=\"http://www.sitemaps.org/schemas/sitemap/0.9\">\n"
  let xml := entries.foldl (fun acc e => acc ++ generateSitemapEntry e) xml
  xml ++ "</urlset>\n"

/-- Local `cleanUrl` of `formatSitemapUrl`: strip one leading slash
(`url.slice(1)`). -/
def cleanUrl (url : String) : String :=
  if strStartsWith url "/" then String.mk (url.data.drop 1) else url

/-- Local `cleanBaseUrl` of `formatSitemapUrl`: strip one trailing slash
(`baseUrl.slice(0, -1)`); this is the base "normalized to have no trailing
slash". -/
def normBase (baseUrl : String) : String :=
  if strEndsWith baseUrl "/" then String.mk (baseUrl.data.dropLast) else baseUrl

/-- Function `formatSitemapUrl` of `sitemap.ts`. -/
def formatSitemapUrl (url : String) (baseUrl : String) : String :=
  if strStartsWith url "http://" || strStartsWith url "https://" then url
  else normBase baseUrl ++ "/" ++ cleanUrl url

/-- Exclusion patterns of `shouldIncludeInSitemap`. -/
def excludePatterns : List String := ["/preview/", "/search", "/api/", "/_", "/admin"]

/-- Function `shouldIncludeInSitemap` of `sitemap.ts`: pure substring match. -/
def shouldIncludeInSitemap (url : String) : Bool :=
  !(excludePatterns.any fun p => containsSub p.data url.data)

/-! ### Embedding of `formatSitemapTimestamp`

The host environment's `Date` is not part of the repository.  Modelled from
the spec: a JS `Date` value is either invalid (`none`) or a broken-down UTC
time (`some DateF`); `Date` string parsing is an arbitrary function
`String → Option DateF` over which the statements quantify, and
`Date.prototype.toISOString` renders the broken-down fields zero-padded. -/

/-- Broken-down UTC time carried by a valid JS `Date`. -/
structure DateF where
  year : ℕ
  month : ℕ
  day : ℕ
  hour : ℕ
  minute : ℕ
  second : ℕ
  ms : ℕ

/-- Field ranges of a real calendar time within `toISOString`'s four-digit
year range. -/
def DateF.Valid (d : DateF) : Prop :=
  d.year ≤ 9999 ∧ 1 ≤ d.month ∧ d.month ≤ 12 ∧ 1 ≤ d.day ∧ d.day ≤ 31 ∧
    d.hour ≤ 23 ∧ d.minute ≤ 59 ∧ d.second ≤ 59 ∧ d.ms ≤ 999

/-- Zero-pad the decimal rendering of `n` on the left to width `w`. -/
def padNat (w n : ℕ) : String :=
  String.mk (List.replicate (w - (natToDigits n).length) '0' ++ natToDigits n)

/-- Modelled from the spec: `Date.prototype.toISOString` for dates in the
four-digit year range (`YYYY-MM-DDTHH:mm:ss.sssZ`). -/
def toISOString (d : DateF) : String :=
  padNat 4 d.year ++ "-" ++ padNat 2 d.month ++ "-" ++ padNat 2 d.day ++ "T" ++
    padNat 2 d.hour ++ ":" ++ padNat 2 d.minute ++ ":" ++ padNat 2 d.second ++ "." ++
    padNat 3 d.ms ++ "Z"

/-- Line `const date = typeof timestamp === 'string' ? new Date(timestamp)
: timestamp;` of `formatSitemapTimestamp`. -/
def jsToDate (parse : String → Option DateF) : String ⊕ Option DateF → Option DateF
  | Sum.inl s => parse s
  | Sum.inr d => d

/-- Function `formatSitemapTimestamp` of `sitemap.ts`: the `Number.isNaN`
check on `getTime()` is exactly invalidity of the date; the thrown error is
the `Except.error` branch (the source message interpolates the input after
the colon, which is dropped here). -/
def formatSitemapTimestamp (parse : String → Option DateF)
    (timestamp : String ⊕ Option DateF) : Except String String :=
  match jsToDate parse timestamp with
  | none => Except.error "Invalid timestamp"
  | some d => Except.ok (toISOString d)

/-- Recognizer for the canonical `YYYY-MM-DDTHH:mm:ss.sssZ` shape (24
characters, digits in the numeric positions, fixed separators). -/
def isCanonicalIso (s : String) : Bool :=
  match s.data with
  | [y1, y2, y3, y4, '-', m1, m2, '-', d1, d2, 'T',
     h1, h2, ':', n1, n2, ':', s1, s2, '.', x1, x2, x3, 'Z'] =>
    [y1, y2, y3, y4, m1, m2, d1, d2, h1, h2, n1, n2, s1, s2, x1, x2, x3].all Char.isDigit
  | _ => false

/-! ### A small XML lexer and content extractor

These model the "re-parse the document as XML" step of the round-trip
properties.  Text is tokenized one character at a time; a tag token carries
everything between `<` and the next `>`. -/

/-- XML lexer token: a tag (opening, closing or declaration) or one text
character. -/
inductive XmlToken where
  | tag : List Char → XmlToken
  | text : Char → XmlToken
deriving DecidableEq

/-- Lexer loop; the state is `none` outside a tag and `some acc` inside a
tag with `acc` the name characters read so far. -/
def lexAux : Option (List Char) → List Char → List XmlToken
  | none, [] => []
  | none, c :: rest =>
    if c = '<' then lexAux (some []) rest else XmlToken.text c :: lexAux none rest
  | some acc, [] => [XmlToken.tag acc]
  | some acc, c :: rest =>
    if c = '>' then XmlToken.tag acc :: lexAux none rest else lexAux (some (acc ++ [c])) rest

/-- Tokenize an XML document. -/
def lexXml (s : String) : List XmlToken := lexAux none s.data

/-- Extractor loop: collect, for each tag named `n`, the text run that
follows it (the element's character content, which ends at the next tag).
The state is `none` while scanning and `some acc` right after an `n` tag. -/
def parseAux (n : List Char) : Option (List Char) → List XmlToken → List (List Char)
  | none, [] => []
  | none, XmlToken.text _ :: rest => parseAux n none rest
  | none, XmlToken.tag t :: rest =>
    if t = n then parseAux n (some []) rest else parseAux n none rest
  | some acc, [] => [acc]
  | some acc, XmlToken.text c :: rest => parseAux n (some (acc ++ [c])) rest
  | some acc, XmlToken.tag _ :: rest => acc :: parseAux n none rest

/-- Character contents of all elements named `n` in a token stream. -/
def parseElems (n : List Char) (ts : List XmlToken) : List (List Char) := parseAux n none ts

/-- XML entity decoder for the five entities produced by `escapeXml`. -/
def unescChars : List Char → List Char
  | [] => []
  | c :: rest =>
    if c = '&' then
      match rest with
      | 'a' :: 'm' :: 'p' :: ';' :: rest2 => '&' :: unescChars rest2
      | 'l' :: 't' :: ';' :: rest2 => '<' :: unescChars rest2
      | 'g' :: 't' :: ';' :: rest2 => '>' :: unescChars rest2
      | 'q' :: 'u' :: 'o' :: 't' :: ';' :: rest2 => Char.ofNat 34 :: unescChars rest2
      | 'a' :: 'p' :: 'o' :: 's' :: ';' :: rest2 => Char.ofNat 39 :: unescChars rest2
      | r2 => c :: unescChars r2
    else c :: unescChars rest

/-- Token stream of one rendered `SitemapEntry` (proved equal to the lexer's
output on `generateSitemapEntry` below). -/
def entryToksCore (e : SitemapEntry) : List XmlToken :=
  [XmlToken.text ' ', XmlToken.text ' ', XmlToken.tag "url".data, XmlToken.text '\n',
    XmlToken.text ' ', XmlToken.text ' ', XmlToken.text ' ', XmlToken.text ' ',
    XmlToken.tag "loc".data] ++
  (escapeXml e.url).data.map XmlToken.text ++
  [XmlToken.tag "/loc".data, XmlToken.text '\n'] ++
  (if truthyS e.lastmod then
     [XmlToken.text ' ', XmlToken.text ' ', XmlToken.text ' ', XmlToken.text ' ',
       XmlToken.tag "lastmod".data] ++
     (escapeXml (e.lastmod.getD "")).data.map XmlToken.text ++
     [XmlToken.tag "/lastmod".data, XmlToken.text '\n']
   else []) ++
  (if truthyS e.changefreq then
     [XmlToken.text ' ', XmlToken.text ' ', XmlToken.text ' ', XmlToken.text ' ',
       XmlToken.tag "changefreq".data] ++
     (escapeXml (e.changefreq.getD "")).data.map XmlToken.text ++
     [XmlToken.tag "/changefreq".data, XmlToken.text '\n']
   else []) ++
  (match e.priority with
   | some p =>
     [XmlToken.text ' ', XmlToken.text ' ', XmlToken.text ' ', XmlToken.text ' ',
       XmlToken.tag "priority".data] ++
     (toFixed1 p).data.map XmlToken.text ++
     [XmlToken.tag "/priority".data, XmlToken.text '\n']
   | none => []) ++
  [XmlToken.text ' ', XmlToken.text ' ', XmlToken.tag "/url".data, XmlToken.text '\n']

/-- Concatenated rendered entries (the body of the document). -/
def entriesData : List SitemapEntry → List Char
  | [] => []
  | e :: es => (generateSitemapEntry e).data ++ entriesData es

/-- A string whose last character group is a point followed by exactly one
decimal digit, with no other point. -/
def oneDecimal (s : String) : Prop :=
  ∃ a d, s.data = a ++ ['.', d] ∧ d.isDigit = true ∧ '.' ∉ a

/-! ### Double-slash bookkeeping for the URL formatter claims -/

/-- No two adjacent `/` characters. -/
def noAdjSlash : List Char → Bool
  | c :: d :: rest => !(c == '/' && d == '/') && noAdjSlash (d :: rest)
  | _ => true

/-- A scheme remainder that neither starts with `/` nor contains `//`. -/
def restOk (cs : List Char) : Prop := noAdjSlash cs = true ∧ cs.head? ≠ some '/'

/-- The string contains no `//` other than the one ending its scheme. -/
def noExtraDS (s : String) : Prop :=
  if strStartsWith s "http://" = true then restOk (s.data.drop 7)
  else if strStartsWith s "https://" = true then restOk (s.data.drop 8)
  else noAdjSlash s.data = true

instance (cs : List Char) : Decidable (restOk cs) :=
  inferInstanceAs (Decidable (_ ∧ _))

instance (s : String) : Decidable (noExtraDS s) :=
  inferInstanceAs (Decidable (if strStartsWith s "http://" = true then restOk (s.data.drop 7)
    else if strStartsWith s "https://" = true then restOk (s.data.drop 8)
    else noAdjSlash s.data = true))

/-! ### Embedding of the content record types of `src/lib/contentful.ts`
(the shapes consumed by `schemas.ts`; fields the generators never read are
kept for shape fidelity where cheap). -/

structure ContentfulSys where
  id : String
  createdAt : String
  updatedAt : String

structure ImageDims where
  width : ℕ
  height : ℕ

structure AssetDetails where
  size : ℕ
  image : Option ImageDims

structure AssetFile where
  url : String
  details : AssetDetails
  fileName : String
  contentType : String

structure AssetFields where
  title : String
  description : Option String
  file : AssetFile

structure ContentfulAsset where
  sys : ContentfulSys
  fields : AssetFields

structure Author where
  sys : ContentfulSys
  name : String
  slug : String
  bio : Option String := none

structure Category where
  sys : ContentfulSys
  name : String
  slug : String
  description : String
  featuredImage : Option ContentfulAsset := none
  color : String

structure BlogPost where
  sys : ContentfulSys
  title : String
  slug : String
  excerpt : String
  content : String
  featuredImage : Option ContentfulAsset := none
  author : Author
  category : Category
  tags : List String
  publishedAt : String

structure GuideStep where
  title : String
  content : String
  image : Option ContentfulAsset := none

structure Guide where
  sys : ContentfulSys
  title : String
  slug : String
  description : String
  content : String
  difficulty : String
  estimatedTime : ℕ
  steps : List GuideStep
  featuredImage : Option ContentfulAsset := none
  category : Category
  tools : List String
  publishedAt : String

/-! ### Embedding of `src/lib/schemas.ts`

Each output record mirrors the JSON-LD object the generator builds: a key
the generator omits is `none`, a key it assigns is `some`.  The constant
`@context`/`@type` discriminators carried by every object are not repeated
in the records. -/

structure SchemaConfig where
  siteUrl : String
  siteName : String
  organizationName : String
  logoUrl : Option String := none
  socialLinks : Option (List String) := none

structure ImageObjectOut where
  url : String
  width : Option ℕ := none
  height : Option ℕ := none

structure OrganizationOut where
  name : String
  url : String
  logo : Option ImageObjectOut := none
  sameAs : Option (List String) := none

structure PersonOut where
  name : String
  url : Option String := none

structure BlogPostingOut where
  headline : String
  description : String
  author : PersonOut
  publisher : OrganizationOut
  datePublished : String
  dateModified : String
  mainEntityOfPageId : String
  image : Option ImageObjectOut := none
  articleSection : Option String := none
  keywords : Option (List String) := none

structure HowToStepOut where
  name : String
  text : String
  image : Option ImageObjectOut := none

structure HowToOut where
  name : String
  description : String
  image : Option ImageObjectOut := none
  totalTime : Option String := none
  step : List HowToStepOut
  tool : Option (List String) := none

/-- JS truthiness of an optional list field followed by `.length > 0`
(the `config.socialLinks && config.socialLinks.length > 0` pattern). -/
def truthyNonempty (o : Option (List String)) : Bool :=
  match o with
  | none => false
  | some l => decide (l ≠ [])

/-- Method `generateOrganizationSchema` of `SchemaGenerator`. -/
def generateOrganizationSchema (cfg : SchemaConfig) : OrganizationOut :=
  { name := cfg.organizationName
    url := cfg.siteUrl
    logo := match cfg.logoUrl with
      | some l => if l ≠ "" then some { url := l } else none
      | none => none
    sameAs := if truthyNonempty cfg.socialLinks then some (cfg.socialLinks.getD []) else none }

/-- The `url.startsWith('http') ? url : siteUrl + url` pattern used for
image and breadcrumb URLs. -/
def absolutize (siteUrl u : String) : String :=
  if strStartsWith u "http" then u else siteUrl ++ u

/-- Method `generateBlogPostingSchema` of `SchemaGenerator`.  The guard
`if (post.category)` of the source tests the category object, which the
`BlogPost` interface makes mandatory, so `articleSection` is always set. -/
def generateBlogPostingSchema (cfg : SchemaConfig) (post : BlogPost)
    (canonicalUrl : String) : BlogPostingOut :=
  { headline := post.title
    description := post.excerpt
    author := { name := post.author.name
                url := if post.author.slug ≠ "" then
                    some (cfg.siteUrl ++ "/author/" ++ post.author.slug)
                  else none }
    publisher := generateOrganizationSchema cfg
    datePublished := post.publishedAt
    dateModified := post.sys.updatedAt
    mainEntityOfPageId := canonicalUrl
    image := match post.featuredImage with
      | some fi =>
        some { url := absolutize cfg.siteUrl fi.fields.file.url
               width := (fi.fields.file.details.image).map ImageDims.width
               height := (fi.fields.file.details.image).map ImageDims.height }
      | none => none
    articleSection := some post.category.name
    keywords := if post.tags ≠ [] then some post.tags else none }

/-- Method `generateHowToSchema` of `SchemaGenerator`. -/
def generateHowToSchema (cfg : SchemaConfig) (guide : Guide) : HowToOut :=
  { name := guide.title
    description := guide.description
    step := guide.steps.map fun step =>
      { name := step.title
        text := step.content
        image := match step.image with
          | some si => some { url := absolutize cfg.siteUrl si.fields.file.url }
          | none => none }
    image := match guide.featuredImage with
      | some fi => some { url := absolutize cfg.siteUrl fi.fields.file.url }
      | none => none
    totalTime := if guide.estimatedTime ≠ 0 then
        some ("PT" ++ natToString guide.estimatedTime ++ "M")
      else none
    tool := if guide.tools ≠ [] then some guide.tools else none }

/-! ### Concrete sample records used by witnesses and counterexamples -/

def sysEx : ContentfulSys :=
  { id := "id1", createdAt := "2024-01-01T00:00:00Z", updatedAt := "2024-02-01T00:00:00Z" }

def catEx : Category :=
  { sys := sysEx, name := "SEO", slug := "seo", description := "d", color := "#112233" }

def catEmptyName : Category :=
  { sys := sysEx, name := "", slug := "c", description := "d", color := "#000000" }

def authorEx : Author := { sys := sysEx, name := "Ann", slug := "ann" }

def cfgEx : SchemaConfig :=
  { siteUrl := "https://site.test", siteName := "S", organizationName := "O" }

def postEx : BlogPost :=
  { sys := sysEx, title := "T", slug := "t", excerpt := "E", content := "C",
    author := authorEx, category := catEx, tags := ["a", "b"],
    publishedAt := "2024-01-15T00:00:00Z" }

def postEmptyCat : BlogPost :=
  { sys := sysEx, title := "T", slug := "t", excerpt := "E", content := "C",
    author := authorEx, category := catEmptyName, tags := [],
    publishedAt := "2024-01-15T00:00:00Z" }

def guideEx : Guide :=
  { sys := sysEx, title := "G", slug := "g", description := "D", content := "C",
    difficulty := "beginner", estimatedTime := 5,
    steps := [{ title := "s1", content := "c1" }, { title := "s2", content := "c2" }],
    category := catEx, tools := ["hammer"], publishedAt := "2024-01-15T00:00:00Z" }

def guideZero : Guide :=
  { sys := sysEx, title := "G", slug := "g", description := "D", content := "C",
    difficulty := "beginner", estimatedTime := 0,
    steps := [{ title := "s1", content := "c1" }],
    category := catEx, tools := [], publishedAt := "2024-01-15T00:00:00Z" }

/-- A rational with value `0.8`, written without field-normalization so that
kernel evaluation stays structural. -/
def ratFourFifths : ℚ := ⟨4, 5, by norm_num, by norm_num⟩

def entryEx : SitemapEntry :=
  { url := "https://e.com/p", lastmod := some "2024-01-15T10:00:00.000Z",
    changefreq := none, priority := some ratFourFifths }

def entryZero : SitemapEntry :=
  { url := "https://e.com/p", lastmod := some "", changefreq := some "",
    priority := some 0 }

/-! ## Helper lemmas -/

lemma digitChar_isDigit {n : ℕ} (h : n < 10) : (Nat.digitChar n).isDigit = true := by
  interval_cases n <;> decide

lemma natToDigitsAux_isDigit :
    ∀ fuel n, n < fuel → ∀ c ∈ natToDigitsAux fuel n, c.isDigit = true := by
  intro fuel
  induction fuel with
  | zero => omega
  | succ fuel ih =>
    intro n hn c hc
    by_cases h10 : n < 10
    · simp only [natToDigitsAux, if_pos h10, List.mem_singleton] at hc
      exact hc ▸ digitChar_isDigit h10
    · simp only [natToDigitsAux, if_neg h10, List.mem_append, List.mem_singleton] at hc
      rcases hc with hc | hc
      · have hdiv : n / 10 < n := Nat.div_lt_self (by omega) (by omega)
        exact ih (n / 10) (by omega) c hc
      · exact hc ▸ digitChar_isDigit (Nat.mod_lt _ (by omega))

lemma natToDigits_isDigit (n : ℕ) : ∀ c ∈ natToDigits n, c.isDigit = true :=
  natToDigitsAux_isDigit (n + 1) n (Nat.lt_succ_self n)

lemma natToDigits_not_point (n : ℕ) : '.' ∉ natToDigits n := by
  intro h
  have := natToDigits_isDigit n '.' h
  simp at this

lemma natToDigitsAux_length :
    ∀ fuel n k, n < fuel → n < 10 ^ k → 0 < k → (natToDigitsAux fuel n).length ≤ k := by
  intro fuel
  induction fuel with
  | zero => omega
  | succ fuel ih =>
    intro n k hn hk hk0
    by_cases h10 : n < 10
    · simp [natToDigitsAux, if_pos h10]
      omega
    · have hdiv : n / 10 < n := Nat.div_lt_self (by omega) (by omega)
      have hk1 : 1 < k := by
        by_contra hcon
        have : k = 1 := by omega
        subst this
        simp at hk
        omega
      have hd : n / 10 < 10 ^ (k - 1) := by
        have h1 : 10 ^ k = 10 ^ (k - 1) * 10 := by
          rw [← pow_succ]
          congr 1
          omega
        rw [Nat.div_lt_iff_lt_mul (by omega)]
        omega
      have := ih (n / 10) (k - 1) (by omega) hd (by omega)
      simp [natToDigitsAux, if_neg h10]
      omega

lemma natToDigits_length_le {n k : ℕ} (h : n < 10 ^ k) (hk : 0 < k) :
    (natToDigits n).length ≤ k :=
  natToDigitsAux_length (n + 1) n k (Nat.lt_succ_self n) h hk

lemma append3_ne_empty (a b c : String) (hb : b.data ≠ []) : a ++ b ++ c ≠ "" := by
  intro h
  apply hb
  have hd := congrArg String.data h
  rw [String.data_append, String.data_append] at hd
  have he : ("" : String).data = [] := rfl
  rw [he] at hd
  exact (List.append_eq_nil.mp (List.append_eq_nil.mp hd).1).2

lemma append3_ne_empty_left (a b c : String) (ha : a.data ≠ []) : a ++ b ++ c ≠ "" := by
  intro h
  apply ha
  have hd := congrArg String.data h
  rw [String.data_append, String.data_append] at hd
  have he : ("" : String).data = [] := rfl
  rw [he] at hd
  exact (List.append_eq_nil.mp (List.append_eq_nil.mp hd).1).1

lemma toFixed1_oneDecimal (q : ℚ) : oneDecimal (toFixed1 q) := by
  refine ⟨(if q < 0 then "-" else "").data ++
      natToDigits (((q.num.natAbs * 20 + q.den) / (2 * q.den)) / 10),
    Nat.digitChar (((q.num.natAbs * 20 + q.den) / (2 * q.den)) % 10), ?_, ?_, ?_⟩
  · simp only [toFixed1, String.data_append]
    by_cases h : q < 0 <;> simp [h, natToString]
  · exact digitChar_isDigit (Nat.mod_lt _ (by omega))
  · intro hmem
    rcases List.mem_append.mp hmem with hs | hd
    · by_cases h : q < 0 <;> simp [h] at hs
    · exact natToDigits_not_point _ hd

/-- The substring test of the embedding agrees with `List.IsInfix`. -/
lemma containsSub_iff (pat : List Char) :
    ∀ s, containsSub pat s = true ↔ pat <:+: s := by
  intro s
  induction s with
  | nil =>
    simp [containsSub, List.isPrefixOf_iff_prefix]
  | cons c rest ih =>
    simp [containsSub, List.isPrefixOf_iff_prefix, ih, List.infix_cons_iff]

/-! ## C7: BlogPosting dates and keywords -/

/-- C7: for every configuration, post and canonical URL, the generated
BlogPosting carries `datePublished = post.publishedAt` and
`dateModified = post.sys.updatedAt`, omits `keywords` exactly when the tag
list is empty, and otherwise sets it to the tag list. -/
theorem blogPosting_dates_keywords (cfg : SchemaConfig) (post : BlogPost)
    (canonicalUrl : String) :
    (generateBlogPostingSchema cfg post canonicalUrl).datePublished = post.publishedAt ∧
    (generateBlogPostingSchema cfg post canonicalUrl).dateModified = post.sys.updatedAt ∧
    (post.tags = [] → (generateBlogPostingSchema cfg post canonicalUrl).keywords = none) ∧
    (post.tags ≠ [] →
      (generateBlogPostingSchema cfg post canonicalUrl).keywords = some post.tags) := by
  refine ⟨rfl, rfl, ?_, ?_⟩ <;> intro h <;> simp [generateBlogPostingSchema, h]

theorem blogPosting_dates_keywords_witness :
    (generateBlogPostingSchema cfgEx postEx "https://site.test/blog/t").keywords =
        some ["a", "b"] ∧
    (generateBlogPostingSchema cfgEx postEmptyCat "https://site.test/blog/t").keywords = none :=
  ⟨(blogPosting_dates_keywords cfgEx postEx "https://site.test/blog/t").2.2.2 (by decide),
   (blogPosting_dates_keywords cfgEx postEmptyCat "https://site.test/blog/t").2.2.1 rfl⟩

/-! ## C8: HowTo step list and totalTime -/

/-- C8: for every configuration and guide, the generated HowTo has exactly
one step per guide step in input order (step `i` takes its `name` from
`steps[i].title` and its `text` from `steps[i].content`), and `totalTime`
is `PT{estimatedTime}M` exactly when `estimatedTime` is truthy, with an
`estimatedTime` of `0` producing no `totalTime` field. -/
theorem howTo_steps_totalTime (cfg : SchemaConfig) (guide : Guide) :
    (generateHowToSchema cfg guide).step.length = guide.steps.length ∧
    (∀ i, ∀ h : i < guide.steps.length,
      ∃ st, (generateHowToSchema cfg guide).step[i]? = some st ∧
        st.name = guide.steps[i].title ∧ st.text = guide.steps[i].content) ∧
    (guide.estimatedTime ≠ 0 →
      (generateHowToSchema cfg guide).totalTime =
        some ("PT" ++ natToString guide.estimatedTime ++ "M")) ∧
    (guide.estimatedTime = 0 → (generateHowToSchema cfg guide).totalTime = none) := by
  refine ⟨by simp [generateHowToSchema], ?_, ?_, ?_⟩
  · intro i h
    refine ⟨⟨guide.steps[i].title, guide.steps[i].content,
      match guide.steps[i].image with
      | some si => some ⟨absolutize cfg.siteUrl si.fields.file.url, none, none⟩
      | none => none⟩, ?_, rfl, rfl⟩
    simp [generateHowToSchema, List.getElem?_map, List.getElem?_eq_getElem h]
  · intro h
    simp [generateHowToSchema, h]
  · intro h
    simp [generateHowToSchema, h]

theorem howTo_steps_totalTime_witness :
    (generateHowToSchema cfgEx guideEx).totalTime = some "PT5M" ∧
    (generateHowToSchema cfgEx guideZero).totalTime = none ∧
    (∃ st, (generateHowToSchema cfgEx guideEx).step[0]? = some st ∧
      st.name = "s1" ∧ st.text = "c1") := by
  refine ⟨?_, (howTo_steps_totalTime cfgEx guideZero).2.2.2 rfl, ?_⟩
  · have h := (howTo_steps_totalTime cfgEx guideEx).2.2.1 (by decide)
    rw [h]
    decide
  · have h := (howTo_steps_totalTime cfgEx guideEx).2.1 0 (by decide)
    obtain ⟨st, h1, h2, h3⟩ := h
    exact ⟨st, h1, h2, h3⟩

/-! ## C9: sitemap exclusion is pure substring matching -/

/-- C9: `shouldIncludeInSitemap` returns `false` exactly when one of the
five exclusion patterns occurs as a contiguous substring of the URL (no
path segmentation), so in particular a URL containing `/blog/admin-tips`
is excluded; the function is total and boolean-valued by construction. -/
theorem sitemap_exclusion (url : String) :
    (shouldIncludeInSitemap url = false ↔
      ∃ p ∈ excludePatterns, p.data <:+: url.data) ∧
    shouldIncludeInSitemap "https://x/blog/admin-tips" = false := by
  constructor
  · simp [shouldIncludeInSitemap, List.any_eq_true, containsSub_iff]
  · decide

/-! ## C6: optional-field omission in the schema generators -/

/-- C6 counterexample: a post whose (mandatory) category object has an empty
`name` makes the generator emit the optional `articleSection` key bound to
the empty string, because the source guards on the category object rather
than on the name. -/
theorem schema_empty_optional_cx :
    (generateBlogPostingSchema cfgEx postEmptyCat "https://site.test/blog/t").articleSection =
      some "" := by
  decide

/-- C6 as amended: every optional field of the generated Organization,
BlogPosting and HowTo objects is omitted when its source data is missing or
empty and is never bound to an empty value — except `articleSection`, which
is guarded only by presence of the category object and therefore equals
`some post.category.name` even when that name is empty. -/
theorem schema_optional_omission (cfg : SchemaConfig) (post : BlogPost)
    (guide : Guide) (canonicalUrl : String) :
    (truthyS cfg.logoUrl = false → (generateOrganizationSchema cfg).logo = none) ∧
    (∀ io, (generateOrganizationSchema cfg).logo = some io → io.url ≠ "") ∧
    (truthyNonempty cfg.socialLinks = false → (generateOrganizationSchema cfg).sameAs = none) ∧
    (∀ ls, (generateOrganizationSchema cfg).sameAs = some ls → ls ≠ []) ∧
    (post.author.slug = "" →
      (generateBlogPostingSchema cfg post canonicalUrl).author.url = none) ∧
    (∀ u, (generateBlogPostingSchema cfg post canonicalUrl).author.url = some u → u ≠ "") ∧
    (post.featuredImage = none →
      (generateBlogPostingSchema cfg post canonicalUrl).image = none) ∧
    (∀ fi, post.featuredImage = some fi → fi.fields.file.details.image = none →
      ∃ io, (generateBlogPostingSchema cfg post canonicalUrl).image = some io ∧
        io.width = none ∧ io.height = none) ∧
    ((generateBlogPostingSchema cfg post canonicalUrl).articleSection =
      some post.category.name) ∧
    (post.tags = [] → (generateBlogPostingSchema cfg post canonicalUrl).keywords = none) ∧
    (∀ ks, (generateBlogPostingSchema cfg post canonicalUrl).keywords = some ks → ks ≠ []) ∧
    (guide.featuredImage = none → (generateHowToSchema cfg guide).image = none) ∧
    (guide.estimatedTime = 0 → (generateHowToSchema cfg guide).totalTime = none) ∧
    (∀ t, (generateHowToSchema cfg guide).totalTime = some t → t ≠ "") ∧
    (guide.tools = [] → (generateHowToSchema cfg guide).tool = none) ∧
    (∀ ts, (generateHowToSchema cfg guide).tool = some ts → ts ≠ []) ∧
    (∀ i, ∀ h : i < guide.steps.length, guide.steps[i].image = none →
      ∃ st, (generateHowToSchema cfg guide).step[i]? = some st ∧ st.image = none) := by
  refine ⟨?_, ?_, ?_, ?_, ?_, ?_, ?_, ?_, rfl, ?_, ?_, ?_, ?_, ?_, ?_, ?_, ?_⟩
  · intro h
    rcases hl : cfg.logoUrl with _ | l
    · simp [generateOrganizationSchema, hl]
    · rw [hl] at h
      simp only [truthyS, decide_eq_false_iff_not, not_not] at h
      simp [generateOrganizationSchema, hl, h]
  · intro io h
    rcases hl : cfg.logoUrl with _ | l
    · simp [generateOrganizationSchema, hl] at h
    · by_cases hne : l = ""
      · simp [generateOrganizationSchema, hl, hne] at h
      · simp only [generateOrganizationSchema, hl, if_pos hne, Option.some.injEq] at h
        rw [← h]
        exact hne
  · intro h
    simp [generateOrganizationSchema, h]
  · intro ls h
    simp only [generateOrganizationSchema] at h
    split at h
    · rename_i ht
      rcases hsl : cfg.socialLinks with _ | l
      · rw [hsl] at ht
        simp [truthyNonempty] at ht
      · rw [hsl] at ht
        simp only [truthyNonempty, decide_eq_true_eq] at ht
        rw [hsl] at h
        simp only [Option.getD_some, Option.some.injEq] at h
        rw [← h]
        exact ht
    · simp at h
  · intro h
    simp [generateBlogPostingSchema, h]
  · intro u h
    simp only [generateBlogPostingSchema] at h
    split at h
    · rw [Option.some.injEq] at h
      rw [← h]
      exact append3_ne_empty _ _ _ (by decide)
    · simp at h
  · intro h
    simp [generateBlogPostingSchema, h]
  · intro fi hfi himg
    refine ⟨⟨absolutize cfg.siteUrl fi.fields.file.url, none, none⟩, ?_, rfl, rfl⟩
    simp [generateBlogPostingSchema, hfi, himg]
  · intro h
    simp [generateBlogPostingSchema, h]
  · intro ks h
    simp only [generateBlogPostingSchema] at h
    split at h
    · rename_i ht
      rw [Option.some.injEq] at h
      rw [← h]
      exact ht
    · simp at h
  · intro h
    simp [generateHowToSchema, h]
  · intro h
    simp [generateHowToSchema, h]
  · intro t h
    simp only [generateHowToSchema] at h
    split at h
    · rw [Option.some.injEq] at h
      rw [← h]
      exact append3_ne_empty_left _ _ _ (by decide)
    · simp at h
  · intro h
    simp [generateHowToSchema, h]
  · intro ts h
    simp only [generateHowToSchema] at h
    split at h
    · rename_i ht
      rw [Option.some.injEq] at h
      rw [← h]
      exact ht
    · simp at h
  · intro i h himg
    refine ⟨⟨guide.steps[i].title, guide.steps[i].content, none⟩, ?_, rfl⟩
    simp [generateHowToSchema, List.getElem?_map, List.getElem?_eq_getElem h, himg]

theorem schema_optional_omission_witness :
    (generateOrganizationSchema cfgEx).logo = none ∧
    (generateOrganizationSchema cfgEx).sameAs = none ∧
    (generateHowToSchema cfgEx guideZero).totalTime = none ∧
    (generateHowToSchema cfgEx guideZero).tool = none ∧
    (generateBlogPostingSchema cfgEx postEmptyCat "https://site.test/blog/t").keywords = none ∧
    ("https://site.test" ++ "/author/" ++ "ann" : String) ≠ "" := by
  obtain ⟨c1, c2, c3, c4, c5, c6, c7, c8, c9, c10, c11, c12, c13, c14, c15, c16, c17⟩ :=
    schema_optional_omission cfgEx postEmptyCat guideZero "https://site.test/blog/t"
  exact ⟨c1 rfl, c3 rfl, c13 rfl, c15 rfl, c10 rfl, c6 _ (by decide)⟩

/-! ## Helper lemmas for the URL formatter -/

lemma startsWith_iff (s p : String) : strStartsWith s p = true ↔ p.data <+: s.data :=
  List.isPrefixOf_iff_prefix

lemma endsWith_iff (s p : String) : strEndsWith s p = true ↔ p.data <:+ s.data :=
  List.isSuffixOf_iff_suffix

lemma endsWith_slash_iff (b : String) :
    strEndsWith b "/" = true ↔ b.data.getLast? = some '/' := by
  rw [endsWith_iff]
  constructor
  · rintro ⟨t, ht⟩
    rw [← ht]
    exact List.getLast?_concat t
  · intro h
    have hne : b.data ≠ [] := by
      intro hc
      rw [hc] at h
      simp at h
    refine ⟨b.data.dropLast, ?_⟩
    have hg := List.getLast?_eq_getLast b.data hne
    rw [h] at hg
    have hg2 : b.data.getLast hne = '/' := by
      injection hg.symm
    show b.data.dropLast ++ ['/'] = b.data
    rw [← hg2]
    exact List.dropLast_append_getLast hne

lemma noAdjSlash_tail {c : Char} {l : List Char} (h : noAdjSlash (c :: l) = true) :
    noAdjSlash l = true := by
  cases l with
  | nil => rfl
  | cons d l' =>
    simp only [noAdjSlash, Bool.and_eq_true] at h
    exact h.2

lemma noAdjSlash_append_iff (ys : List Char) :
    ∀ xs, noAdjSlash (xs ++ ys) = true ↔
      noAdjSlash xs = true ∧ noAdjSlash ys = true ∧
        ¬(xs.getLast? = some '/' ∧ ys.head? = some '/') := by
  intro xs
  induction xs with
  | nil => simp [noAdjSlash]
  | cons x xs ih =>
    cases xs with
    | nil =>
      cases ys with
      | nil => simp [noAdjSlash]
      | cons y ys' =>
        show noAdjSlash (x :: y :: ys') = true ↔ _
        simp only [noAdjSlash, Bool.and_eq_true, List.getLast?_singleton,
          List.head?_cons, Option.some.injEq]
        constructor
        · rintro ⟨h1, h2⟩
          refine ⟨by simp [noAdjSlash], h2, ?_⟩
          rintro ⟨rfl, rfl⟩
          simp at h1
        · rintro ⟨-, h2, h3⟩
          refine ⟨?_, h2⟩
          by_cases hx : x = '/'
          · by_cases hy : y = '/'
            · exact absurd ⟨hx, hy⟩ h3
            · simp [hx, hy]
          · simp [hx]
    | cons x' xs' =>
      have hih := ih
      simp only [List.cons_append] at hih ⊢
      simp only [noAdjSlash, Bool.and_eq_true, List.getLast?_cons_cons]
      rw [hih]
      tauto

lemma noAdjSlash_slash_cons {u' : List Char} (h1 : noAdjSlash u' = true)
    (h2 : u'.head? ≠ some '/') : noAdjSlash ('/' :: u') = true := by
  have h := (noAdjSlash_append_iff u' ['/']).mpr ⟨rfl, h1, fun hc => h2 hc.2⟩
  simpa using h

lemma noAdjSlash_cons_head {l : List Char} (h : noAdjSlash ('/' :: l) = true) :
    l.head? ≠ some '/' := by
  cases l with
  | nil => simp
  | cons d l' =>
    simp only [noAdjSlash, Bool.and_eq_true, beq_iff_eq, Bool.not_eq_true',
      Bool.and_eq_false_iff] at h
    rcases h.1 with h1 | h1 <;> simp_all

lemma cleanUrl_facts {u : String} (hu : noAdjSlash u.data = true) :
    noAdjSlash (cleanUrl u).data = true ∧ (cleanUrl u).data.head? ≠ some '/' := by
  unfold cleanUrl
  by_cases hs : strStartsWith u "/" = true
  · rw [if_pos hs]
    obtain ⟨t, ht⟩ := (startsWith_iff u "/").mp hs
    have hu2 : u.data = '/' :: t := by
      rw [← ht]
      rfl
    rw [hu2] at hu
    have hdrop : (String.mk (u.data.drop 1)).data = t := by
      rw [hu2]
      rfl
    rw [hdrop]
    exact ⟨noAdjSlash_tail hu, noAdjSlash_cons_head hu⟩
  · rw [if_neg hs]
    refine ⟨hu, ?_⟩
    intro hc
    apply hs
    rw [startsWith_iff]
    cases hd : u.data with
    | nil => rw [hd] at hc; simp at hc
    | cons c rest =>
      rw [hd] at hc
      simp only [List.head?_cons, Option.some.injEq] at hc
      refine ⟨rest, ?_⟩
      rw [hc]
      rfl

lemma formatSitemapUrl_rel {u : String} (b : String)
    (h1 : strStartsWith u "http://" = false) (h2 : strStartsWith u "https://" = false) :
    (formatSitemapUrl u b).data = (normBase b).data ++ '/' :: (cleanUrl u).data := by
  rw [formatSitemapUrl, if_neg (by rw [h1, h2]; simp)]
  rw [String.data_append, String.data_append]
  have hs : ("/" : String).data = ['/'] := rfl
  rw [hs, List.append_assoc]
  rfl

lemma formatSitemapUrl_abs {u : String} (b : String)
    (h : strStartsWith u "http://" = true ∨ strStartsWith u "https://" = true) :
    formatSitemapUrl u b = u := by
  rcases h with h | h <;> simp [formatSitemapUrl, h]

lemma scheme_prefix_result {P : List Char} (hP : P.getLast? = some '/') {b : String}
    (hb : P <+: b.data) (u' : List Char) : P <+: (normBase b).data ++ '/' :: u' := by
  unfold normBase
  by_cases hew : strEndsWith b "/" = true
  · rw [if_pos hew]
    obtain ⟨t, ht⟩ := hb
    rcases List.eq_nil_or_concat t with rfl | ⟨t0, c, rfl⟩
    · rw [List.append_nil] at ht
      have hPne : P ≠ [] := by
        intro hc
        rw [hc] at hP
        simp at hP
      have hg := List.getLast?_eq_getLast P hPne
      rw [hP] at hg
      have hg2 : P.getLast hPne = '/' := by injection hg.symm
      have hdecomp : P.dropLast ++ ['/'] = P := by
        rw [← hg2]
        exact List.dropLast_append_getLast hPne
      have hq : (String.mk b.data.dropLast).data = P.dropLast := by
        show b.data.dropLast = P.dropLast
        rw [← ht]
      rw [hq]
      refine ⟨u', Eq.symm ?_⟩
      calc P.dropLast ++ '/' :: u' = (P.dropLast ++ ['/']) ++ u' := by simp
        _ = P ++ u' := by rw [hdecomp]
    · have hq : (String.mk b.data.dropLast).data = P ++ t0 := by
        show b.data.dropLast = P ++ t0
        rw [← ht, List.concat_eq_append, ← List.append_assoc, List.dropLast_concat]
      rw [hq]
      refine ⟨t0 ++ '/' :: u', ?_⟩
      simp
  · rw [if_neg hew]
    exact hb.trans (List.prefix_append _ _)

lemma restOk_result {P : List Char} (hP : P.getLast? = some '/') {rb : List Char}
    {b : String} (hb : b.data = P ++ rb) (hrb : restOk rb) {u' : List Char}
    (hu1 : noAdjSlash u' = true) (hu2 : u'.head? ≠ some '/') :
    ∃ X, (normBase b).data ++ '/' :: u' = P ++ X ∧ restOk X := by
  have hPne : P ≠ [] := by
    intro hc
    rw [hc] at hP
    simp at hP
  unfold normBase
  by_cases hew : strEndsWith b "/" = true
  · rw [if_pos hew]
    rw [endsWith_slash_iff, hb] at hew
    rcases heq : rb with _ | ⟨r0, rb'⟩
    · subst heq
      rw [List.append_nil] at hb
      have hg := List.getLast?_eq_getLast P hPne
      rw [hP] at hg
      have hg2 : P.getLast hPne = '/' := by injection hg.symm
      have hdecomp : P.dropLast ++ ['/'] = P := by
        rw [← hg2]
        exact List.dropLast_append_getLast hPne
      have hdl : (String.mk b.data.dropLast).data = P.dropLast := by
        show b.data.dropLast = P.dropLast
        rw [hb]
      rw [hdl]
      refine ⟨u', ?_, hu1, hu2⟩
      calc P.dropLast ++ '/' :: u' = (P.dropLast ++ ['/']) ++ u' := by simp
        _ = P ++ u' := by rw [hdecomp]
    · have hrbne : rb ≠ [] := by rw [heq]; simp
      rw [List.getLast?_append_of_ne_nil P hrbne] at hew
      have hg := List.getLast?_eq_getLast rb hrbne
      rw [hew] at hg
      have hg2 : rb.getLast hrbne = '/' := by injection hg.symm
      obtain ⟨w, hwrb⟩ : ∃ w, w ++ ['/'] = rb :=
        ⟨rb.dropLast, by rw [← hg2]; exact List.dropLast_append_getLast hrbne⟩
      have hwne : w ≠ [] := by
        intro hc
        apply hrb.2
        rw [← hwrb, hc]
        rfl
      have hna := hrb.1
      rw [← hwrb, noAdjSlash_append_iff] at hna
      have hwlast : w.getLast? ≠ some '/' := fun hc => hna.2.2 ⟨hc, rfl⟩
      have hwhead : w.head? ≠ some '/' := by
        intro hc
        apply hrb.2
        rw [← hwrb]
        cases w with
        | nil => exact absurd rfl hwne
        | cons a l => simpa using hc
      have hdl : (String.mk b.data.dropLast).data = P ++ w := by
        show b.data.dropLast = P ++ w
        rw [hb, ← hwrb, ← List.append_assoc, List.dropLast_concat]
      rw [hdl]
      refine ⟨w ++ '/' :: u', by simp, ?_, ?_⟩
      · rw [noAdjSlash_append_iff]
        exact ⟨hna.1, noAdjSlash_slash_cons hu1 hu2, fun hc => hwlast hc.1⟩
      · cases w with
        | nil => exact absurd rfl hwne
        | cons a l => simpa using hwhead
  · rw [if_neg hew]
    rw [endsWith_slash_iff, hb] at hew
    have hrbne : rb ≠ [] := by
      intro hc
      apply hew
      rw [hc, List.append_nil]
      exact hP
    rw [List.getLast?_append_of_ne_nil P hrbne] at hew
    refine ⟨rb ++ '/' :: u', by simp [hb], ?_, ?_⟩
    · rw [noAdjSlash_append_iff]
      exact ⟨hrb.1, noAdjSlash_slash_cons hu1 hu2, fun hc => hew hc.1⟩
    · cases hrc : rb with
      | nil => exact absurd hrc hrbne
      | cons a l =>
        have hh := hrb.2
        rw [hrc] at hh
        simpa using hh

lemma not_http_of_https {r : String} {X : List Char}
    (h : r.data = "https://".data ++ X) : strStartsWith r "http://" = false := by
  by_contra hc
  rw [Bool.not_eq_false, startsWith_iff] at hc
  have htake := (List.prefix_iff_eq_take.mp hc)
  rw [h] at htake
  rw [List.take_append_of_le_length (by decide)] at htake
  have : ("http://".data).length = 7 := by decide
  rw [this] at htake
  have : List.take 7 "https://".data = "https:/".data := by decide
  rw [this] at htake
  exact absurd htake (by decide)

/-! ## C4: idempotence of the URL formatter -/

/-- C4 counterexample: with the non-absolute base `"x"`, a second
application prepends the base again, so `formatSitemapUrl` is not
idempotent for every base. -/
theorem formatUrl_not_idempotent :
    formatSitemapUrl (formatSitemapUrl "a" "x") "x" ≠ formatSitemapUrl "a" "x" := by
  decide

/-- C4 as amended: `formatSitemapUrl` leaves every already-absolute URL
unchanged regardless of the base, and it is idempotent for every URL
whenever the base itself starts with `http://` or `https://` (the result is
then absolute, so a second application returns it unchanged).  With a base
that is neither, idempotence can fail (see the counterexample). -/
theorem formatUrl_idempotent_absolute_base :
    (∀ u b, strStartsWith u "http://" = true ∨ strStartsWith u "https://" = true →
      formatSitemapUrl u b = u) ∧
    (∀ u b, strStartsWith b "http://" = true ∨ strStartsWith b "https://" = true →
      formatSitemapUrl (formatSitemapUrl u b) b = formatSitemapUrl u b) := by
  refine ⟨fun u b h => formatSitemapUrl_abs b h, fun u b hb => ?_⟩
  by_cases habs : strStartsWith u "http://" = true ∨ strStartsWith u "https://" = true
  · rw [formatSitemapUrl_abs b habs, formatSitemapUrl_abs b habs]
  · push_neg at habs
    simp only [ne_eq, Bool.not_eq_true] at habs
    have hdata := formatSitemapUrl_rel b habs.1 habs.2
    apply formatSitemapUrl_abs
    rcases hb with hb | hb
    · left
      rw [startsWith_iff, hdata]
      exact scheme_prefix_result (by decide) ((startsWith_iff b "http://").mp hb) _
    · right
      rw [startsWith_iff, hdata]
      exact scheme_prefix_result (by decide) ((startsWith_iff b "https://").mp hb) _

theorem formatUrl_idempotent_absolute_base_witness :
    formatSitemapUrl (formatSitemapUrl "a" "https://e.com") "https://e.com" =
      formatSitemapUrl "a" "https://e.com" ∧
    formatSitemapUrl "http://x/y" "https://e.com" = "http://x/y" :=
  ⟨formatUrl_idempotent_absolute_base.2 "a" "https://e.com" (Or.inr (by decide)),
   formatUrl_idempotent_absolute_base.1 "http://x/y" "https://e.com" (Or.inl (by decide))⟩

/-! ## C5: shape of the formatter's output for relative URLs -/

/-- C5 counterexample: the protocol-relative input `"//a"` is treated as
relative, only one leading slash is stripped, and the output
`https://e.com//a` contains a `//` beyond the scheme's. -/
theorem formatUrl_extra_double_slash_cx :
    strStartsWith "//a" "http://" = false ∧ strStartsWith "//a" "https://" = false ∧
    formatSitemapUrl "//a" "https://e.com" = "https://e.com//a" ∧
    ¬ noExtraDS "https://e.com//a" := by
  decide

/-- C5 as amended: for every relative `u` and every base `b` the result
starts with `b` normalized to have no trailing slash; and the result
contains no `//` other than the scheme's provided `u` itself contains no
`//` and `b` is an `http://` or `https://` URL containing no `//` after its
scheme (the counterexample shows the `//`-freeness fails without these). -/
theorem formatUrl_no_extra_double_slash (u b : String)
    (h1 : strStartsWith u "http://" = false) (h2 : strStartsWith u "https://" = false) :
    strStartsWith (formatSitemapUrl u b) (normBase b) = true ∧
    (noAdjSlash u.data = true →
      (strStartsWith b "http://" = true ∨ strStartsWith b "https://" = true) →
      noExtraDS b → noExtraDS (formatSitemapUrl u b)) := by
  have hdata := formatSitemapUrl_rel b h1 h2
  constructor
  · rw [startsWith_iff, hdata]
    exact List.prefix_append _ _
  · intro hu hb hnb
    have hcu := cleanUrl_facts hu
    rcases hb with hb | hb
    · obtain ⟨rb, hrb⟩ := (startsWith_iff b "http://").mp hb
      have hbdata : b.data = "http://".data ++ rb := hrb.symm
      have hrbok : restOk rb := by
        unfold noExtraDS at hnb
        rw [if_pos hb] at hnb
        have : b.data.drop 7 = rb := by
          rw [hbdata]
          have h7 : ("http://".data).length = 7 := by decide
          rw [← h7]
          exact List.drop_left _ _
        rwa [this] at hnb
      obtain ⟨X, hXeq, hXok⟩ := restOk_result (by decide) hbdata hrbok hcu.1 hcu.2
      have hrX : (formatSitemapUrl u b).data = "http://".data ++ X := by
        rw [hdata, hXeq]
      unfold noExtraDS
      rw [if_pos (by rw [startsWith_iff]; exact ⟨X, hrX.symm⟩)]
      have : (formatSitemapUrl u b).data.drop 7 = X := by
        rw [hrX]
        have h7 : ("http://".data).length = 7 := by decide
        rw [← h7]
        exact List.drop_left _ _
      rwa [this]
    · obtain ⟨rb, hrb⟩ := (startsWith_iff b "https://").mp hb
      have hbdata : b.data = "https://".data ++ rb := hrb.symm
      have hbnh : strStartsWith b "http://" = false := not_http_of_https hbdata
      have hrbok : restOk rb := by
        unfold noExtraDS at hnb
        rw [if_neg (by rw [hbnh]; simp), if_pos hb] at hnb
        have : b.data.drop 8 = rb := by
          rw [hbdata]
          have h8 : ("https://".data).length = 8 := by decide
          rw [← h8]
          exact List.drop_left _ _
        rwa [this] at hnb
      obtain ⟨X, hXeq, hXok⟩ := restOk_result (by decide) hbdata hrbok hcu.1 hcu.2
      have hrX : (formatSitemapUrl u b).data = "https://".data ++ X := by
        rw [hdata, hXeq]
      unfold noExtraDS
      rw [if_neg (by rw [not_http_of_https hrX]; simp),
        if_pos (by rw [startsWith_iff]; exact ⟨X, hrX.symm⟩)]
      have : (formatSitemapUrl u b).data.drop 8 = X := by
        rw [hrX]
        have h8 : ("https://".data).length = 8 := by decide
        rw [← h8]
        exact List.drop_left _ _
      rwa [this]

theorem formatUrl_no_extra_double_slash_witness :
    strStartsWith (formatSitemapUrl "blog/a" "https://e.com/") (normBase "https://e.com/") =
      true ∧
    noExtraDS (formatSitemapUrl "blog/a" "https://e.com/") := by
  have h := formatUrl_no_extra_double_slash "blog/a" "https://e.com/" (by decide) (by decide)
  exact ⟨h.1, h.2 (by decide) (Or.inr (by decide)) (by decide)⟩

/-! ## XML lexer lemmas -/

lemma lexAux_text {cs : List Char} (h : ∀ c ∈ cs, c ≠ '<') (ds : List Char) :
    lexAux none (cs ++ ds) = cs.map XmlToken.text ++ lexAux none ds := by
  induction cs with
  | nil => rfl
  | cons c cs ih =>
    have hc : c ≠ '<' := h c (List.mem_cons_self c cs)
    simp only [List.cons_append, lexAux, if_neg hc, List.map_cons, List.append_eq]
    rw [ih fun x hx => h x (List.mem_cons_of_mem c hx)]

lemma escChar_no_lt (c : Char) : ∀ x ∈ escChar c, x ≠ '<' := by
  intro x hx
  unfold escChar at hx
  split at hx
  · rw [show ("&amp;" : String).data = ['&', 'a', 'm', 'p', ';'] from rfl] at hx
    fin_cases hx <;> decide
  · split at hx
    · rw [show ("&lt;" : String).data = ['&', 'l', 't', ';'] from rfl] at hx
      fin_cases hx <;> decide
    · split at hx
      · rw [show ("&gt;" : String).data = ['&', 'g', 't', ';'] from rfl] at hx
        fin_cases hx <;> decide
      · split at hx
        · rw [show ("&quot;" : String).data = ['&', 'q', 'u', 'o', 't', ';'] from rfl] at hx
          fin_cases hx <;> decide
        · split at hx
          · rw [show ("&apos;" : String).data = ['&', 'a', 'p', 'o', 's', ';'] from rfl] at hx
            fin_cases hx <;> decide
          · simp only [List.mem_singleton] at hx
            subst hx
            assumption

lemma escapeXml_no_lt (s : String) : ∀ x ∈ (escapeXml s).data, x ≠ '<' := by
  intro x hx
  rw [escapeXml] at hx
  simp only [List.mem_flatMap] at hx
  obtain ⟨c, -, hc⟩ := hx
  exact escChar_no_lt c x hc

lemma isDigit_ne_lt {x : Char} (h : x.isDigit = true) : x ≠ '<' := by
  intro hc
  subst hc
  simp at h

lemma toFixed1_no_lt (q : ℚ) : ∀ x ∈ (toFixed1 q).data, x ≠ '<' := by
  intro x hx
  simp only [toFixed1, String.data_append] at hx
  rcases List.mem_append.mp hx with hx | hx
  · rcases List.mem_append.mp hx with hx | hx
    · rcases List.mem_append.mp hx with hx | hx
      · by_cases hq : q < 0 <;> simp [hq] at hx <;> simp [hx]
      · exact isDigit_ne_lt (natToDigits_isDigit _ x (by simpa [natToString] using hx))
    · simp only [List.mem_singleton] at hx
      subst hx
      decide
  · simp only [List.mem_singleton] at hx
    subst hx
    exact isDigit_ne_lt (digitChar_isDigit (Nat.mod_lt _ (by omega)))

lemma lex_esc (s : String) (ds : List Char) :
    lexAux none (s.data.flatMap escChar ++ ds) =
      (s.data.flatMap escChar).map XmlToken.text ++ lexAux none ds :=
  lexAux_text (by simpa [escapeXml] using escapeXml_no_lt s) ds

lemma lex_fixed (q : ℚ) (ds : List Char) :
    lexAux none ((toFixed1 q).data ++ ds) =
      (toFixed1 q).data.map XmlToken.text ++ lexAux none ds :=
  lexAux_text (toFixed1_no_lt q) ds

lemma lex_entry (e : SitemapEntry) (ds : List Char) :
    lexAux none ((generateSitemapEntry e).data ++ ds) = entryToksCore e ++ lexAux none ds := by
  obtain ⟨url, lastmod, changefreq, priority⟩ := e
  rcases priority with _ | p
  · by_cases hlm : truthyS lastmod = true <;> by_cases hcf : truthyS changefreq = true <;>
      · simp only [generateSitemapEntry, entryToksCore, hlm, hcf]
        simp [hlm, hcf, lexAux, lex_esc, escapeXml, String.data_append, List.append_assoc]
  · obtain ⟨tf, htf⟩ : ∃ tf, toFixed1 p = tf := ⟨_, rfl⟩
    have hftoks : ∀ c ∈ tf.data, c ≠ '<' := htf ▸ toFixed1_no_lt p
    by_cases hlm : truthyS lastmod = true <;> by_cases hcf : truthyS changefreq = true <;>
      · simp only [generateSitemapEntry, entryToksCore, hlm, hcf, htf]
        simp [hlm, hcf, lexAux, lex_esc, lexAux_text hftoks, escapeXml, String.data_append,
          List.append_assoc]

lemma lexXml_entry (e : SitemapEntry) : lexXml (generateSitemapEntry e) = entryToksCore e := by
  have h := lex_entry e []
  rw [List.append_nil] at h
  rw [lexXml, h]
  simp [lexAux]

/-! ## Entity decoding lemmas -/

lemma unescChars_cons_ne {c : Char} (h : c ≠ '&') (rest : List Char) :
    unescChars (c :: rest) = c :: unescChars rest := by
  unfold unescChars
  rw [if_neg h]
  exact congrArg (c :: .) (unescChars.eq_def rest)

lemma unescChars_escChar (c : Char) (rest : List Char) :
    unescChars (escChar c ++ rest) = c :: unescChars rest := by
  by_cases h1 : c = '&'
  · subst h1; rfl
  · by_cases h2 : c = '<'
    · subst h2; rfl
    · by_cases h3 : c = '>'
      · subst h3; rfl
      · by_cases h4 : c = Char.ofNat 34
        · subst h4; rfl
        · by_cases h5 : c = Char.ofNat 39
          · subst h5; rfl
          · have he : escChar c = [c] := by
              simp [escChar, h1, h2, h3, h4, h5]
            rw [he, List.singleton_append, unescChars_cons_ne h1]

lemma unescChars_flatMap (s : List Char) (rest : List Char) :
    unescChars (s.flatMap escChar ++ rest) = s ++ unescChars rest := by
  induction s with
  | nil => rfl
  | cons c s ih =>
    simp only [List.flatMap_cons, List.append_assoc]
    rw [unescChars_escChar, ih]
    rfl

/-- Unescaping inverts `escapeXml`: the two sides of the round trip. -/
lemma unesc_escapeXml (s : String) : unescChars (escapeXml s).data = s.data := by
  have h := unescChars_flatMap s.data []
  rw [List.append_nil] at h
  rw [escapeXml]
  show unescChars (s.data.flatMap escChar) = s.data
  rw [h, show unescChars [] = [] from rfl, List.append_nil]

/-! ## Content extractor lemmas -/

lemma parseAux_text_skip (n : List Char) (cs : List Char) (ts : List XmlToken) :
    parseAux n none (cs.map XmlToken.text ++ ts) = parseAux n none ts := by
  induction cs with
  | nil => rfl
  | cons c cs ih => simpa [parseAux] using ih

lemma parseAux_collect (n : List Char) (cs : List Char) :
    ∀ (acc : List Char) (ts : List XmlToken),
      parseAux n (some acc) (cs.map XmlToken.text ++ ts) = parseAux n (some (acc ++ cs)) ts := by
  induction cs with
  | nil =>
    intro acc ts
    simp
  | cons c cs ih =>
    intro acc ts
    simp only [List.map_cons, List.cons_append, parseAux, List.append_eq]
    rw [ih (acc ++ [c]) ts]
    simp

lemma parse_entry_loc (e : SitemapEntry) (ts : List XmlToken) :
    parseAux "loc".data none (entryToksCore e ++ ts) =
      (escapeXml e.url).data :: parseAux "loc".data none ts := by
  obtain ⟨url, lastmod, changefreq, priority⟩ := e
  obtain ⟨eu, heu⟩ : ∃ x, escapeXml url = x := ⟨_, rfl⟩
  obtain ⟨el, hel⟩ : ∃ x, escapeXml (lastmod.getD "") = x := ⟨_, rfl⟩
  obtain ⟨ec, hec⟩ : ∃ x, escapeXml (changefreq.getD "") = x := ⟨_, rfl⟩
  rcases priority with _ | p
  · by_cases hlm : truthyS lastmod = true <;> by_cases hcf : truthyS changefreq = true <;>
      · simp [entryToksCore, hlm, hcf, heu, hel, hec, parseAux, parseAux_text_skip,
          parseAux_collect]
  · obtain ⟨tf, htf⟩ : ∃ x, toFixed1 p = x := ⟨_, rfl⟩
    by_cases hlm : truthyS lastmod = true <;> by_cases hcf : truthyS changefreq = true <;>
      · simp [entryToksCore, hlm, hcf, heu, hel, hec, htf, parseAux, parseAux_text_skip,
          parseAux_collect]

lemma parse_entry_url (e : SitemapEntry) (ts : List XmlToken) :
    parseAux "url".data none (entryToksCore e ++ ts) =
      ['\n', ' ', ' ', ' ', ' '] :: parseAux "url".data none ts := by
  obtain ⟨url, lastmod, changefreq, priority⟩ := e
  obtain ⟨eu, heu⟩ : ∃ x, escapeXml url = x := ⟨_, rfl⟩
  obtain ⟨el, hel⟩ : ∃ x, escapeXml (lastmod.getD "") = x := ⟨_, rfl⟩
  obtain ⟨ec, hec⟩ : ∃ x, escapeXml (changefreq.getD "") = x := ⟨_, rfl⟩
  rcases priority with _ | p
  · by_cases hlm : truthyS lastmod = true <;> by_cases hcf : truthyS changefreq = true <;>
      · simp [entryToksCore, hlm, hcf, heu, hel, hec, parseAux, parseAux_text_skip,
          parseAux_collect]
  · obtain ⟨tf, htf⟩ : ∃ x, toFixed1 p = x := ⟨_, rfl⟩
    by_cases hlm : truthyS lastmod = true <;> by_cases hcf : truthyS changefreq = true <;>
      · simp [entryToksCore, hlm, hcf, heu, hel, hec, htf, parseAux, parseAux_text_skip,
          parseAux_collect]

lemma parse_entry_lastmod (e : SitemapEntry) (ts : List XmlToken) :
    parseAux "lastmod".data none (entryToksCore e ++ ts) =
      (if truthyS e.lastmod then [(escapeXml (e.lastmod.getD "")).data] else []) ++
        parseAux "lastmod".data none ts := by
  obtain ⟨url, lastmod, changefreq, priority⟩ := e
  obtain ⟨eu, heu⟩ : ∃ x, escapeXml url = x := ⟨_, rfl⟩
  obtain ⟨el, hel⟩ : ∃ x, escapeXml (lastmod.getD "") = x := ⟨_, rfl⟩
  obtain ⟨ec, hec⟩ : ∃ x, escapeXml (changefreq.getD "") = x := ⟨_, rfl⟩
  rcases priority with _ | p
  · by_cases hlm : truthyS lastmod = true <;> by_cases hcf : truthyS changefreq = true <;>
      · simp [entryToksCore, hlm, hcf, heu, hel, hec, parseAux, parseAux_text_skip,
          parseAux_collect]
  · obtain ⟨tf, htf⟩ : ∃ x, toFixed1 p = x := ⟨_, rfl⟩
    by_cases hlm : truthyS lastmod = true <;> by_cases hcf : truthyS changefreq = true <;>
      · simp [entryToksCore, hlm, hcf, heu, hel, hec, htf, parseAux, parseAux_text_skip,
          parseAux_collect]

lemma parse_entry_changefreq (e : SitemapEntry) (ts : List XmlToken) :
    parseAux "changefreq".data none (entryToksCore e ++ ts) =
      (if truthyS e.changefreq then [(escapeXml (e.changefreq.getD "")).data] else []) ++
        parseAux "changefreq".data none ts := by
  obtain ⟨url, lastmod, changefreq, priority⟩ := e
  obtain ⟨eu, heu⟩ : ∃ x, escapeXml url = x := ⟨_, rfl⟩
  obtain ⟨el, hel⟩ : ∃ x, escapeXml (lastmod.getD "") = x := ⟨_, rfl⟩
  obtain ⟨ec, hec⟩ : ∃ x, escapeXml (changefreq.getD "") = x := ⟨_, rfl⟩
  rcases priority with _ | p
  · by_cases hlm : truthyS lastmod = true <;> by_cases hcf : truthyS changefreq = true <;>
      · simp [entryToksCore, hlm, hcf, heu, hel, hec, parseAux, parseAux_text_skip,
          parseAux_collect]
  · obtain ⟨tf, htf⟩ : ∃ x, toFixed1 p = x := ⟨_, rfl⟩
    by_cases hlm : truthyS lastmod = true <;> by_cases hcf : truthyS changefreq = true <;>
      · simp [entryToksCore, hlm, hcf, heu, hel, hec, htf, parseAux, parseAux_text_skip,
          parseAux_collect]

lemma parse_entry_priority (e : SitemapEntry) (ts : List XmlToken) :
    parseAux "priority".data none (entryToksCore e ++ ts) =
      (match e.priority with
       | some p => [(toFixed1 p).data]
       | none => []) ++ parseAux "priority".data none ts := by
  obtain ⟨url, lastmod, changefreq, priority⟩ := e
  obtain ⟨eu, heu⟩ : ∃ x, escapeXml url = x := ⟨_, rfl⟩
  obtain ⟨el, hel⟩ : ∃ x, escapeXml (lastmod.getD "") = x := ⟨_, rfl⟩
  obtain ⟨ec, hec⟩ : ∃ x, escapeXml (changefreq.getD "") = x := ⟨_, rfl⟩
  rcases priority with _ | p
  · by_cases hlm : truthyS lastmod = true <;> by_cases hcf : truthyS changefreq = true <;>
      · simp [entryToksCore, hlm, hcf, heu, hel, hec, parseAux, parseAux_text_skip,
          parseAux_collect]
  · obtain ⟨tf, htf⟩ : ∃ x, toFixed1 p = x := ⟨_, rfl⟩
    by_cases hlm : truthyS lastmod = true <;> by_cases hcf : truthyS changefreq = true <;>
      · simp [entryToksCore, hlm, hcf, heu, hel, hec, htf, parseAux, parseAux_text_skip,
          parseAux_collect]

lemma mem_tag_entry (e : SitemapEntry) (t : List Char) :
    XmlToken.tag t ∈ entryToksCore e ↔
      (t = "url".data ∨ t = "loc".data ∨ t = "/loc".data ∨ t = "/url".data ∨
        (truthyS e.lastmod = true ∧ (t = "lastmod".data ∨ t = "/lastmod".data)) ∨
        (truthyS e.changefreq = true ∧ (t = "changefreq".data ∨ t = "/changefreq".data)) ∨
        (e.priority.isSome = true ∧ (t = "priority".data ∨ t = "/priority".data))) := by
  obtain ⟨url, lastmod, changefreq, priority⟩ := e
  obtain ⟨eu, heu⟩ : ∃ x, escapeXml url = x := ⟨_, rfl⟩
  obtain ⟨el, hel⟩ : ∃ x, escapeXml (lastmod.getD "") = x := ⟨_, rfl⟩
  obtain ⟨ec, hec⟩ : ∃ x, escapeXml (changefreq.getD "") = x := ⟨_, rfl⟩
  rcases priority with _ | p
  · by_cases hlm : truthyS lastmod = true <;> by_cases hcf : truthyS changefreq = true <;>
      · simp [entryToksCore, hlm, hcf, heu, hel, hec, List.mem_append, List.mem_map]
        try tauto
  · obtain ⟨tf, htf⟩ : ∃ x, toFixed1 p = x := ⟨_, rfl⟩
    by_cases hlm : truthyS lastmod = true <;> by_cases hcf : truthyS changefreq = true <;>
      · simp [entryToksCore, hlm, hcf, heu, hel, hec, htf, List.mem_append, List.mem_map]
        try tauto

lemma parseAux_tag_ne {n t : List Char} (h : ¬ t = n) (ts : List XmlToken) :
    parseAux n none (XmlToken.tag t :: ts) = parseAux n none ts := by
  simp [parseAux, h]

lemma parseAux_text_one (n : List Char) (c : Char) (ts : List XmlToken) :
    parseAux n none (XmlToken.text c :: ts) = parseAux n none ts := by
  simp [parseAux]

lemma string_eta (s : String) : String.mk s.data = s := rfl

/-! ## Document-level lemmas -/

lemma fold_data (es : List SitemapEntry) :
    ∀ a : String, (es.foldl (fun acc e => acc ++ generateSitemapEntry e) a).data =
      a.data ++ entriesData es := by
  induction es with
  | nil =>
    intro a
    simp [entriesData]
  | cons e es ih =>
    intro a
    simp only [List.foldl_cons]
    rw [ih (a ++ generateSitemapEntry e)]
    simp [entriesData, String.data_append]

lemma doc_data (es : List SitemapEntry) :
    (generateSitemapXml es).data =
      ("<?xml version=\"1.0\" encoding=\"UTF-8\"?>\n" : String).data ++
      (("<urlset xmlns=\"http://www.sitemaps.org/schemas/sitemap/0.9\">\n" : String).data ++
      (entriesData es ++ ("</urlset>\n" : String).data)) := by
  simp only [generateSitemapXml]
  rw [String.data_append, fold_data, String.data_append]
  simp [List.append_assoc]

lemma lex_doc (es : List SitemapEntry) :
    lexXml (generateSitemapXml es) =
      XmlToken.tag ("?xml version=\"1.0\" encoding=\"UTF-8\"?" : String).data ::
      XmlToken.text '\n' ::
      XmlToken.tag ("urlset xmlns=\"http://www.sitemaps.org/schemas/sitemap/0.9\"" : String).data ::
      XmlToken.text '\n' ::
      lexAux none (entriesData es ++ ("</urlset>\n" : String).data) := by
  rw [lexXml, doc_data]
  simp [lexAux]

lemma parse_doc_loc (es : List SitemapEntry) :
    parseAux "loc".data none
        (lexAux none (entriesData es ++ ("</urlset>\n" : String).data)) =
      es.map fun e => (escapeXml e.url).data := by
  induction es with
  | nil => rfl
  | cons e es ih =>
    simp only [entriesData, List.append_assoc]
    rw [lex_entry, parse_entry_loc, ih]
    simp

lemma parse_doc_url (es : List SitemapEntry) :
    parseAux "url".data none
        (lexAux none (entriesData es ++ ("</urlset>\n" : String).data)) =
      es.map fun _ => ['\n', ' ', ' ', ' ', ' '] := by
  induction es with
  | nil => rfl
  | cons e es ih =>
    simp only [entriesData, List.append_assoc]
    rw [lex_entry, parse_entry_url, ih]
    simp

/-! ## C1: full-document round trip -/

/-- C1: for every entry list, re-parsing the rendered sitemap yields exactly
one `url` element per entry, and the `loc` contents, once XML-unescaped,
are exactly the original entry URLs in order (this covers URLs containing
`&`, `<` or `"`, which `escapeXml` encodes and `unescChars` decodes); the
empty list still renders the well-formed empty urlset document. -/
theorem sitemap_roundtrip :
    (∀ es : List SitemapEntry,
      (parseElems "loc".data (lexXml (generateSitemapXml es))).map
          (fun cs => String.mk (unescChars cs)) = es.map SitemapEntry.url) ∧
    (∀ es : List SitemapEntry,
      (parseElems "url".data (lexXml (generateSitemapXml es))).length = es.length) ∧
    generateSitemapXml [] =
      "<?xml version=\"1.0\" encoding=\"UTF-8\"?>\n<urlset xmlns=\"http://www.sitemaps.org/schemas/sitemap/0.9\">\n</urlset>\n" := by
  refine ⟨?_, ?_, by decide⟩
  · intro es
    rw [parseElems, lex_doc, parseAux_tag_ne (by decide), parseAux_text_one,
      parseAux_tag_ne (by decide), parseAux_text_one, parse_doc_loc, List.map_map]
    apply List.map_congr_left
    intro e he
    show String.mk (unescChars (escapeXml e.url).data) = e.url
    rw [unesc_escapeXml, string_eta]
  · intro es
    rw [parseElems, lex_doc, parseAux_tag_ne (by decide), parseAux_text_one,
      parseAux_tag_ne (by decide), parseAux_text_one, parse_doc_url]
    simp

/-! ## C2: per-entry element emission and escaping -/

/-- C2: every rendered entry contains a `loc` element; a `lastmod` or
`changefreq` element appears only when the corresponding optional field is
present (an absent field yields no element), and a `priority` element
appears exactly when `priority` is present; the `loc` (and, when emitted,
`lastmod`/`changefreq`) contents XML-unescape back to the inserted field
values, so all inserted text was escaped; and an emitted priority is
rendered with exactly one decimal digit. -/
theorem entry_optional_fields (e : SitemapEntry) :
    XmlToken.tag "loc".data ∈ lexXml (generateSitemapEntry e) ∧
    (XmlToken.tag "lastmod".data ∈ lexXml (generateSitemapEntry e) →
      e.lastmod.isSome = true) ∧
    (e.lastmod = none → XmlToken.tag "lastmod".data ∉ lexXml (generateSitemapEntry e)) ∧
    (XmlToken.tag "changefreq".data ∈ lexXml (generateSitemapEntry e) →
      e.changefreq.isSome = true) ∧
    (e.changefreq = none →
      XmlToken.tag "changefreq".data ∉ lexXml (generateSitemapEntry e)) ∧
    (XmlToken.tag "priority".data ∈ lexXml (generateSitemapEntry e) ↔
      e.priority.isSome = true) ∧
    ((parseElems "loc".data (lexXml (generateSitemapEntry e))).map
        (fun cs => String.mk (unescChars cs)) = [e.url]) ∧
    (truthyS e.lastmod = true →
      (parseElems "lastmod".data (lexXml (generateSitemapEntry e))).map
          (fun cs => String.mk (unescChars cs)) = [e.lastmod.getD ""]) ∧
    (truthyS e.changefreq = true →
      (parseElems "changefreq".data (lexXml (generateSitemapEntry e))).map
          (fun cs => String.mk (unescChars cs)) = [e.changefreq.getD ""]) ∧
    (∀ q, e.priority = some q →
      parseElems "priority".data (lexXml (generateSitemapEntry e)) = [(toFixed1 q).data] ∧
      oneDecimal (toFixed1 q)) := by
  have ht := lexXml_entry e
  have happ : entryToksCore e = entryToksCore e ++ [] := (List.append_nil _).symm
  refine ⟨?_, ?_, ?_, ?_, ?_, ?_, ?_, ?_, ?_, ?_⟩
  · rw [ht, mem_tag_entry]
    simp
  · intro h
    rw [ht, mem_tag_entry] at h
    simp at h
    rcases hl : e.lastmod with _ | s
    · rw [hl] at h
      simp [truthyS] at h
    · rfl
  · intro hl h
    rw [ht, mem_tag_entry] at h
    simp [hl, truthyS] at h
  · intro h
    rw [ht, mem_tag_entry] at h
    simp at h
    rcases hl : e.changefreq with _ | s
    · rw [hl] at h
      simp [truthyS] at h
    · rfl
  · intro hl h
    rw [ht, mem_tag_entry] at h
    simp [hl, truthyS] at h
  · rw [ht, mem_tag_entry]
    simp
  · rw [parseElems, ht, happ, parse_entry_loc]
    simp [unesc_escapeXml, string_eta, parseAux]
  · intro h
    rw [parseElems, ht, happ, parse_entry_lastmod, h]
    simp [unesc_escapeXml, string_eta, parseAux]
  · intro h
    rw [parseElems, ht, happ, parse_entry_changefreq, h]
    simp [unesc_escapeXml, string_eta, parseAux]
  · intro q hq
    rw [parseElems, ht, happ, parse_entry_priority, hq]
    exact ⟨by simp [parseAux], toFixed1_oneDecimal q⟩

theorem entry_optional_fields_witness :
    XmlToken.tag "loc".data ∈ lexXml (generateSitemapEntry entryEx) ∧
    entryEx.lastmod.isSome = true ∧
    XmlToken.tag "changefreq".data ∉ lexXml (generateSitemapEntry entryEx) ∧
    (parseElems "loc".data (lexXml (generateSitemapEntry entryEx))).map
        (fun cs => String.mk (unescChars cs)) = ["https://e.com/p"] ∧
    parseElems "priority".data (lexXml (generateSitemapEntry entryEx)) =
      [(toFixed1 ratFourFifths).data] ∧
    oneDecimal (toFixed1 ratFourFifths) ∧
    toFixed1 ratFourFifths = "0.8" := by
  obtain ⟨c1, c2, c3, c4, c5, c6, c7, c8, c9, c10⟩ := entry_optional_fields entryEx
  exact ⟨c1, c2 (by decide), c5 rfl, c7.trans rfl, (c10 ratFourFifths rfl).1,
    (c10 ratFourFifths rfl).2, by decide⟩

/-! ## C10: presence tests differ between priority and lastmod/changefreq -/

/-- C10: `generateSitemapEntry` checks `priority` against `undefined` but
`lastmod`/`changefreq` for truthiness: a priority of exactly `0` is emitted
as `<priority>0.0</priority>`, while an empty-string `lastmod` or
`changefreq` produces no element at all. -/
theorem entry_presence_asymmetry (e : SitemapEntry) :
    (e.lastmod = some "" → XmlToken.tag "lastmod".data ∉ lexXml (generateSitemapEntry e)) ∧
    (e.changefreq = some "" →
      XmlToken.tag "changefreq".data ∉ lexXml (generateSitemapEntry e)) ∧
    (e.priority = some 0 →
      XmlToken.tag "priority".data ∈ lexXml (generateSitemapEntry e) ∧
      parseElems "priority".data (lexXml (generateSitemapEntry e)) = ["0.0".data]) := by
  have ht := lexXml_entry e
  have happ : entryToksCore e = entryToksCore e ++ [] := (List.append_nil _).symm
  refine ⟨?_, ?_, ?_⟩
  · intro hl h
    rw [ht, mem_tag_entry] at h
    simp [hl, truthyS] at h
  · intro hl h
    rw [ht, mem_tag_entry] at h
    simp [hl, truthyS] at h
  · intro hp
    constructor
    · rw [ht, mem_tag_entry]
      simp [hp]
    · rw [parseElems, ht, happ, parse_entry_priority, hp]
      show [(toFixed1 0).data] ++ parseAux "priority".data none [] = ["0.0".data]
      rw [show toFixed1 0 = "0.0" from by decide]
      simp [parseAux]

theorem entry_presence_asymmetry_witness :
    XmlToken.tag "lastmod".data ∉ lexXml (generateSitemapEntry entryZero) ∧
    XmlToken.tag "changefreq".data ∉ lexXml (generateSitemapEntry entryZero) ∧
    XmlToken.tag "priority".data ∈ lexXml (generateSitemapEntry entryZero) ∧
    parseElems "priority".data (lexXml (generateSitemapEntry entryZero)) = ["0.0".data] := by
  obtain ⟨c1, c2, c3⟩ := entry_presence_asymmetry entryZero
  exact ⟨c1 rfl, c2 rfl, (c3 rfl).1, (c3 rfl).2⟩

/-! ## C3: timestamp formatting -/

lemma padNat_length {w n : ℕ} (h : n < 10 ^ w) (hw : 0 < w) : (padNat w n).data.length = w := by
  show (List.replicate (w - (natToDigits n).length) '0' ++ natToDigits n).length = w
  have hle := natToDigits_length_le h hw
  simp [List.length_replicate]
  omega

lemma padNat_digits (w n : ℕ) : ∀ c ∈ (padNat w n).data, c.isDigit = true := by
  intro c hc
  rcases List.mem_append.mp hc with hc | hc
  · rw [List.eq_of_mem_replicate hc]
    decide
  · exact natToDigits_isDigit n c hc

lemma exists_list2 (l : List Char) (h : l.length = 2) : ∃ a b, l = [a, b] := by
  rcases l with _ | ⟨a, _ | ⟨b, _ | ⟨c, l⟩⟩⟩ <;> simp at h
  exact ⟨a, b, rfl⟩

lemma exists_list3 (l : List Char) (h : l.length = 3) : ∃ a b c, l = [a, b, c] := by
  rcases l with _ | ⟨a, _ | ⟨b, _ | ⟨c, _ | ⟨d, l⟩⟩⟩⟩ <;> simp at h
  exact ⟨a, b, c, rfl⟩

lemma exists_list4 (l : List Char) (h : l.length = 4) : ∃ a b c d, l = [a, b, c, d] := by
  rcases l with _ | ⟨a, _ | ⟨b, _ | ⟨c, _ | ⟨d, _ | ⟨e, l⟩⟩⟩⟩⟩ <;> simp at h
  exact ⟨a, b, c, d, rfl⟩

lemma toISOString_canonical {d : DateF} (hd : d.Valid) :
    isCanonicalIso (toISOString d) = true := by
  obtain ⟨hy, hm1, hm2, hd1, hd2, hh, hmin, hs, hms⟩ := hd
  obtain ⟨y1, y2, y3, y4, hyl⟩ :=
    exists_list4 _ (padNat_length (n := d.year) (by omega) (by omega))
  obtain ⟨m1, m2, hml⟩ := exists_list2 _ (padNat_length (n := d.month) (by omega) (by omega))
  obtain ⟨dd1, dd2, hdl⟩ := exists_list2 _ (padNat_length (n := d.day) (by omega) (by omega))
  obtain ⟨h1, h2, hhl⟩ := exists_list2 _ (padNat_length (n := d.hour) (by omega) (by omega))
  obtain ⟨n1, n2, hnl⟩ := exists_list2 _ (padNat_length (n := d.minute) (by omega) (by omega))
  obtain ⟨s1, s2, hsl⟩ := exists_list2 _ (padNat_length (n := d.second) (by omega) (by omega))
  obtain ⟨x1, x2, x3, hxl⟩ := exists_list3 _ (padNat_length (n := d.ms) (by omega) (by omega))
  have hdata : (toISOString d).data =
      [y1, y2, y3, y4, '-', m1, m2, '-', dd1, dd2, 'T', h1, h2, ':', n1, n2, ':',
        s1, s2, '.', x1, x2, x3, 'Z'] := by
    simp only [toISOString, String.data_append, hyl, hml, hdl, hhl, hnl, hsl, hxl]
    simp
  have hred : isCanonicalIso (toISOString d) =
      [y1, y2, y3, y4, m1, m2, dd1, dd2, h1, h2, n1, n2, s1, s2, x1, x2, x3].all
        Char.isDigit := by
    rw [isCanonicalIso.eq_def, hdata]
    rfl
  rw [hred]
  have hds := padNat_digits 4 d.year
  rw [hyl] at hds
  have hdm := padNat_digits 2 d.month
  rw [hml] at hdm
  have hdd := padNat_digits 2 d.day
  rw [hdl] at hdd
  have hdh := padNat_digits 2 d.hour
  rw [hhl] at hdh
  have hdn := padNat_digits 2 d.minute
  rw [hnl] at hdn
  have hdsec := padNat_digits 2 d.second
  rw [hsl] at hdsec
  have hdx := padNat_digits 3 d.ms
  rw [hxl] at hdx
  simp only [List.all_cons, List.all_nil, Bool.and_eq_true]
  refine ⟨hds y1 (by simp), hds y2 (by simp), hds y3 (by simp), hds y4 (by simp),
    hdm m1 (by simp), hdm m2 (by simp), hdd dd1 (by simp), hdd dd2 (by simp),
    hdh h1 (by simp), hdh h2 (by simp), hdn n1 (by simp), hdn n2 (by simp),
    hdsec s1 (by simp), hdsec s2 (by simp), hdx x1 (by simp), hdx x2 (by simp),
    hdx x3 (by simp), trivial⟩

/-- C3: for every date parser and every string-or-Date input, a valid parse
yields `Except.ok` with the canonical UTC ISO-8601 millisecond rendering of
the date (the `YYYY-MM-DDTHH:mm:ss.sssZ` shape, for calendar dates in the
four-digit-year range), and an unparseable input yields the
invalid-timestamp error rather than any fallback value; every other
embedded sitemap operation is a total function, so only this one can
fail. -/
theorem timestamp_format (parse : String → Option DateF) (t : String ⊕ Option DateF) :
    (∀ d, jsToDate parse t = some d →
      formatSitemapTimestamp parse t = Except.ok (toISOString d) ∧
        (d.Valid → isCanonicalIso (toISOString d) = true)) ∧
    (jsToDate parse t = none →
      formatSitemapTimestamp parse t = Except.error "Invalid timestamp") := by
  constructor
  · intro d hd
    constructor
    · simp [formatSitemapTimestamp, hd]
    · exact fun hv => toISOString_canonical hv
  · intro hd
    simp [formatSitemapTimestamp, hd]

theorem timestamp_format_witness :
    formatSitemapTimestamp (fun _ => none) (Sum.inr (some ⟨2024, 1, 15, 10, 0, 0, 0⟩)) =
      Except.ok "2024-01-15T10:00:00.000Z" ∧
    isCanonicalIso "2024-01-15T10:00:00.000Z" = true ∧
    formatSitemapTimestamp (fun _ => none) (Sum.inl "invalid") =
      Except.error "Invalid timestamp" := by
  have h := timestamp_format (fun _ => none) (Sum.inr (some ⟨2024, 1, 15, 10, 0, 0, 0⟩))
  have h2 := timestamp_format (fun _ => none) (Sum.inl "invalid")
  have hiso : toISOString ⟨2024, 1, 15, 10, 0, 0, 0⟩ = "2024-01-15T10:00:00.000Z" := by decide
  refine ⟨?_, ?_, h2.2 rfl⟩
  · have ho := (h.1 ⟨2024, 1, 15, 10, 0, 0, 0⟩ rfl).1
    rw [hiso] at ho
    exact ho
  · have hc := (h.1 ⟨2024, 1, 15, 10, 0, 0, 0⟩ rfl).2 (by norm_num [DateF.Valid])
    rw [hiso] at hc
    exact hc

end SeoLab
